import Mathlib

/-!
Verification development for the YouTube Hebrew transcription pipeline
(`src/transcription_bot.py`).  The Python source is shallowly embedded:
each method of `CloudYouTubeTranscriptionBot` that the specification's
claims mention becomes a pure Lean function, with the external
collaborators (YouTube search, GitHub contents API, Google Docs, the
filesystem) replaced by explicit oracle values describing what those
collaborators would answer during one sequential run.  Timestamps are
modelled as integers (epoch seconds); `timedelta(days=n)` is `n * 86400`.
-/

namespace TranscriptionBot

/-- `MAX_DURATION` constant (seconds), line 25 of the source. -/
def MAX_DURATION : Nat := 180

/-- Seconds in one day: `timedelta(days=1)`. -/
def daySecs : Int := 86400

/-- Outcome of one GitHub contents-API read, as seen by the bot:
`ok a` = HTTP 200 and the payload parsed to `a`; `absent` = a non-200
status (file missing); `err` = the request or the parse raised. -/
inductive ReadResult (α : Type) where
  | ok (a : α)
  | absent
  | err
deriving Repr, DecidableEq

/-- A candidate video as built by `get_recent_videos` (lines 233-238). -/
structure Video where
  id : String
  title : String
  published : String
  url : String
deriving Repr, DecidableEq

/-- The durable remote state: the two GitHub-hosted JSON records,
`last_check.json` (the watermark) and `processed_videos.json`
(the processed-ID set).  `none` means the record does not exist. -/
structure Store where
  lastCheck : Option Int
  processed : Option (List String)
deriving Repr, DecidableEq

/-- `get_last_check_time_from_github` (lines 136-159): with no token the
default `now - 1 day` is returned at once; otherwise a 200 response
yields the stored timestamp, and a missing file or a raising
request/parse degrades to the same default.  Total: never raises. -/
def get_last_check_time_from_github (now : Int) (hasToken : Bool)
    (resp : ReadResult Int) : Int :=
  if !hasToken then now - daySecs
  else
    match resp with
    | .ok t => t
    | .absent => now - daySecs
    | .err => now - daySecs

/-- `get_processed_videos_from_github` (lines 502-525): empty set with no
token; a 200 response yields the stored ID list, and absence or a
raising request/parse degrades to the empty set.  Total: never raises. -/
def get_processed_videos_from_github (hasToken : Bool)
    (resp : ReadResult (List String)) : List String :=
  if !hasToken then []
  else
    match resp with
    | .ok ids => ids
    | .absent => []
    | .err => []

/-- `save_last_check_time_to_github` (lines 161-194): a no-op without a
token; otherwise writes `datetime.now().isoformat()` — always the
current time, the function takes no timestamp argument. -/
def save_last_check_time_to_github (now : Int) (hasToken : Bool)
    (s : Store) : Store :=
  if !hasToken then s else { s with lastCheck := some now }

/-- `save_processed_videos_to_github` (lines 473-500): replaces the whole
`processed_videos.json` record with the given ID list (read-modify-write
against the contents API; remote acceptance is abstracted to success). -/
def save_processed_videos_to_github (ids : List String) (s : Store) : Store :=
  { s with processed := some ids }

/-! ### Duration parsing (`is_short_video`, lines 246-271)

The source runs `re.search(r'PT(?:(\d+)M)?(?:(\d+)S)?', duration_str)`:
the pattern matches at the leftmost occurrence of the literal `PT`
(both groups are optional), after which a greedy digit run must be
immediately followed by `M` to bind minutes, and then a digit run
immediately followed by `S` to bind seconds; unmatched groups count 0.
An hour field (`PT1H…`) therefore contributes nothing. -/

/-- One optional regex group `(?:(\d+)TAG)?` at the current position:
succeeds iff a nonempty digit run is followed directly by `tag`. -/
def matchGroup (tag : Char) (cs : List Char) : Option (Nat × List Char) :=
  let p := cs.span Char.isDigit
  match p.2 with
  | c :: tl =>
      if c = tag ∧ p.1 ≠ [] then
        some (p.1.foldl (fun n d => n * 10 + (d.toNat - 48)) 0, tl)
      else none
  | [] => none

/-- The minutes/seconds arithmetic of lines 264-266, applied to the text
following the matched `PT`. -/
def parseAfterPT (cs : List Char) : Nat :=
  match matchGroup 'M' cs with
  | some (m, rest) =>
      match matchGroup 'S' rest with
      | some (s, _) => m * 60 + s
      | none => m * 60
  | none =>
      match matchGroup 'S' cs with
      | some (s, _) => s
      | none => 0

/-- Leftmost occurrence of the literal `PT`; `re.search` anchors the
pattern there since everything after `PT` is optional. -/
def findPT : List Char → Option (List Char)
  | [] => none
  | 'P' :: 'T' :: rest => some rest
  | _ :: rest => findPT rest

/-- Total seconds extracted from an ISO-8601 duration string by the
regex of line 262, or `none` when the pattern does not match at all. -/
def parseDuration (s : String) : Option Nat :=
  (findPT s.toList).map parseAfterPT

/-- What the per-candidate `videos.list` lookup inside `is_short_video`
answered: a `contentDetails.duration` string, an empty `items` array,
or a raised request/parse error. -/
inductive DurationLookup where
  | items (durationStr : String)
  | noItems
  | err
deriving Repr, DecidableEq

/-- `is_short_video` (lines 246-271): keep iff the duration lookup
returned a string the regex matches and the computed seconds are at
most `MAX_DURATION`; an empty `items` array, a failed regex match, or a
raised error all return `False`. -/
def is_short_video (d : DurationLookup) : Bool :=
  match d with
  | .items s =>
      match parseDuration s with
      | some total => total ≤ MAX_DURATION
      | none => false
  | .noItems => false
  | .err => false

/-- One entry of the YouTube search response together with the outcome
of its secondary duration lookup. -/
structure Candidate where
  videoId : String
  title : String
  publishedAt : String
  duration : DurationLookup
deriving Repr, DecidableEq

/-- Lines 233-238: the dict appended for a kept candidate. -/
def mkVideo (c : Candidate) : Video :=
  { id := c.videoId, title := c.title, published := c.publishedAt,
    url := "https://youtube.com/watch?v=" ++ c.videoId }

/-- `get_recent_videos` (lines 196-244): `[]` without an API key; on a
raising search request (`Except.error`) the handler at line 242 returns
`[]`; otherwise the response items filtered by `is_short_video`. -/
def get_recent_videos (hasApiKey : Bool)
    (search : Except Unit (List Candidate)) : List Video :=
  if !hasApiKey then []
  else
    match search with
    | .error _ => []
    | .ok items => (items.filter (fun c => is_short_video c.duration)).map mkVideo

/-! ### Per-item worker (`download_audio_to_temp`, `transcribe_hebrew_audio`,
`append_to_google_doc`, `cleanup_temp_file`) and the scratch-resource model

Each item's interaction with the external collaborators is summarised by
an `ItemEnv`: whether some download strategy eventually produced an audio
file (and its name inside the scratch directory), what the Whisper call
returned (`none` = raised), and whether the Google-Docs append succeeded.
Scratch state is the list of currently existing temporary directories. -/

/-- Oracle for one item's three pipeline stages. -/
structure ItemEnv where
  download : Option String
  transcribeResult : Option String
  sinkOk : Bool
deriving Repr, DecidableEq

/-- The fresh directory `tempfile.mkdtemp()` creates for a video's
download (line 275); names are keyed by the video ID, which keeps them
distinct across distinct items. -/
def mkScratchDir (v : Video) : String := "/tmp/scratch_" ++ v.id

/-- `download_audio_to_temp` (lines 273-351): always creates the scratch
directory first; on success returns a file path inside it; when every
strategy (including `download_via_api_alternative`) fails it returns
`None` — and no path of the function removes the directory. -/
def download_audio_to_temp (e : ItemEnv) (v : Video) (live : List String) :
    Option String × List String :=
  let d := mkScratchDir v
  let live' := live ++ [d]
  match e.download with
  | some f => (some (d ++ "/" ++ f), live')
  | none => (none, live')

/-- Directory part of a scratch file path: `os.path.dirname` for the
paths this model builds (everything before the last `/`). -/
def dirnameOf (p : String) : String :=
  match (p.toList.reverse.dropWhile (· ≠ '/')) with
  | _ :: rest => String.mk rest.reverse
  | [] => ""

/-- `cleanup_temp_file` (lines 462-471): removes the file and then
`os.rmdir`s its containing directory; errors are swallowed. -/
def cleanup_temp_file (p : String) (live : List String) : List String :=
  live.filter (fun d => d ≠ dirnameOf p)

/-- `if not hebrew_text:` — `transcribe_hebrew_audio` (lines 393-407)
returns `None` when Whisper raised, and the orchestrator additionally
treats an empty stripped text as a failure (falsy string). -/
def textFails (t : Option String) : Bool :=
  match t with
  | none => true
  | some s => s.isEmpty

/-- Did every stage of one item succeed?  (Download produced a file, the
transcription is a nonempty text, and the sink append returned True.) -/
def itemSucceeds (e : ItemEnv) : Bool :=
  e.download.isSome && !textFails e.transcribeResult && e.sinkOk

/-- In-memory state of one run of the orchestrator loop. -/
structure RunState where
  /-- `successfully_processed`: the loaded IDs plus this run's new ones. -/
  proc : List String
  /-- IDs of the items the loop body was entered for (instrumentation:
  these are exactly the items fetch/transcribe/sink is attempted for). -/
  attempted : List String
  /-- `total_attempts`. -/
  att : Nat
  /-- `successful_attempts` (resp. `successful_retries`). -/
  succ : Nat
  /-- Temporary directories currently existing on disk. -/
  live : List String
deriving Repr, DecidableEq

/-- One iteration of the processing loop (lines 557-584 of
`process_new_videos`; the loop of `retry_failed_videos` at lines 628-651
is identical apart from log text and the counter names). -/
def processItem (e : ItemEnv) (v : Video) (st : RunState) : RunState :=
  let st := { st with att := st.att + 1, attempted := st.attempted ++ [v.id] }
  match download_audio_to_temp e v st.live with
  | (none, live') => { st with live := live' }
  | (some f, live') =>
      let st := { st with live := live' }
      if textFails e.transcribeResult then
        { st with live := cleanup_temp_file f st.live }
      else
        if e.sinkOk then
          let st := { st with proc := st.proc ++ [v.id], succ := st.succ + 1 }
          { st with live := cleanup_temp_file f st.live }
        else
          { st with live := cleanup_temp_file f st.live }

/-- Everything one run observes from the outside world. -/
structure BotEnv where
  /-- `datetime.now()` during the run. -/
  now : Int
  /-- `GITHUB_TOKEN` present? -/
  hasToken : Bool
  /-- `YOUTUBE_API_KEY` present? -/
  hasApiKey : Bool
  /-- GitHub read of `last_check.json`. -/
  readLastCheck : ReadResult Int
  /-- GitHub read of `processed_videos.json`. -/
  readProcessed : ReadResult (List String)
  /-- YouTube search outcome (error = the request/parse raised). -/
  search : Except Unit (List Candidate)
  /-- Per-item collaborator outcomes. -/
  itemEnv : Video → ItemEnv

/-- `process_new_videos` (lines 527-601).  Returns the store after the
run together with the final in-memory run state. -/
def process_new_videos (env : BotEnv) (s : Store) : Store × RunState :=
  let processed_video_ids :=
    get_processed_videos_from_github env.hasToken env.readProcessed
  let videos := get_recent_videos env.hasApiKey env.search
  if videos.isEmpty then
    (save_last_check_time_to_github env.now env.hasToken s,
     ⟨processed_video_ids, [], 0, 0, []⟩)
  else
    let unprocessed_videos :=
      videos.filter (fun v => !(processed_video_ids.contains v.id))
    if unprocessed_videos.isEmpty then
      (save_last_check_time_to_github env.now env.hasToken s,
       ⟨processed_video_ids, [], 0, 0, []⟩)
    else
      let st0 : RunState := ⟨processed_video_ids, [], 0, 0, []⟩
      let st := unprocessed_videos.foldl
        (fun st v => processItem (env.itemEnv v) v st) st0
      let s := save_processed_videos_to_github st.proc s
      let s :=
        if st.succ > 0 then save_last_check_time_to_github env.now env.hasToken s
        else if st.att = 0 then save_last_check_time_to_github env.now env.hasToken s
        else s
      (s, st)

/-- `retry_failed_videos` (lines 603-658): discovery with a forced
lookback date, the same dedup filter and loop, but the processed list is
written only when at least one retry succeeded, and
`save_last_check_time_to_github` is never called. -/
def retry_failed_videos (env : BotEnv) (s : Store) : Store × RunState :=
  let videos := get_recent_videos env.hasApiKey env.search
  if videos.isEmpty then (s, ⟨[], [], 0, 0, []⟩)
  else
    let processed_video_ids :=
      get_processed_videos_from_github env.hasToken env.readProcessed
    let unprocessed_videos :=
      videos.filter (fun v => !(processed_video_ids.contains v.id))
    if unprocessed_videos.isEmpty then (s, ⟨processed_video_ids, [], 0, 0, []⟩)
    else
      let st0 : RunState := ⟨processed_video_ids, [], 0, 0, []⟩
      let st := unprocessed_videos.foldl
        (fun st v => processItem (env.itemEnv v) v st) st0
      let s := if st.succ > 0 then save_processed_videos_to_github st.proc s else s
      (s, st)

/-- The `reset` branch of `main` (lines 672-676): `reset_date` is
computed as `now - 30 days` and printed, but
`save_last_check_time_to_github()` is called with no argument and
stores the current time. -/
def main_reset (env : BotEnv) (s : Store) : Store :=
  save_last_check_time_to_github env.now env.hasToken s

/-- The `reset_date` value line 674 computes (and only prints). -/
def reset_date (now : Int) : Int := now - 30 * daySecs

/-! ### Sink-writer truncation (`append_to_google_doc`, lines 416-421) -/

/-- Python's `str.split()` with no argument: split on whitespace runs,
dropping empty pieces.  Accumulator-based over the character list. -/
def pySplitAux : List Char → List Char → List (List Char)
  | [], acc => if acc.isEmpty then [] else [acc.reverse]
  | c :: tl, acc =>
      if c.isWhitespace then
        if acc.isEmpty then pySplitAux tl []
        else acc.reverse :: pySplitAux tl []
      else pySplitAux tl (c :: acc)

/-- `hebrew_text.split()` as a list of words. -/
def pyWords (s : String) : List String :=
  (pySplitAux s.toList []).map String.mk

/-- Lines 418-421: texts of more than 500 words are replaced by the
first 500 words joined with single spaces plus `"..."`; shorter texts
pass through unchanged. -/
def truncate_transcript (s : String) : String :=
  let words := pyWords s
  if words.length > 500 then
    String.intercalate " " (words.take 500) ++ "..."
  else s

/-! ### Helper lemmas: the loop body and its fold -/

/-- Counter/bookkeeping effect of one loop iteration: the attempt counter
rises by one, the item's ID is recorded as attempted, and the ID joins
`successfully_processed` (and the success counter) exactly when all
three stages succeeded. -/
theorem processItem_spec (e : ItemEnv) (v : Video) (st : RunState) :
    (processItem e v st).att = st.att + 1 ∧
    (processItem e v st).attempted = st.attempted ++ [v.id] ∧
    (processItem e v st).proc
      = st.proc ++ (if itemSucceeds e then [v.id] else []) ∧
    (processItem e v st).succ
      = st.succ + (if itemSucceeds e then 1 else 0) := by
  rcases e with ⟨dl, tr, sk⟩
  cases dl with
  | none => simp [processItem, download_audio_to_temp, itemSucceeds]
  | some f =>
      by_cases ht : textFails tr
      · simp [processItem, download_audio_to_temp, itemSucceeds, ht]
      · cases sk <;>
          simp [processItem, download_audio_to_temp, itemSucceeds, ht]

/-- Characterisation of the whole processing loop as a fold. -/
theorem foldl_processItem_spec (ienv : Video → ItemEnv) (vs : List Video)
    (st : RunState) :
    (vs.foldl (fun st v => processItem (ienv v) v st) st).att
      = st.att + vs.length ∧
    (vs.foldl (fun st v => processItem (ienv v) v st) st).attempted
      = st.attempted ++ vs.map (·.id) ∧
    (vs.foldl (fun st v => processItem (ienv v) v st) st).proc
      = st.proc ++ (vs.filter (fun v => itemSucceeds (ienv v))).map (·.id) ∧
    (vs.foldl (fun st v => processItem (ienv v) v st) st).succ
      = st.succ + vs.countP (fun v => itemSucceeds (ienv v)) := by
  induction vs generalizing st with
  | nil => simp
  | cons v vs ih =>
      obtain ⟨ha, hl, hp, hs⟩ := processItem_spec (ienv v) v st
      obtain ⟨iha, ihl, ihp, ihs⟩ := ih (processItem (ienv v) v st)
      refine ⟨?_, ?_, ?_, ?_⟩
      · simp [List.foldl_cons, iha, ha, Nat.add_assoc, Nat.add_comm 1]
      · simp [List.foldl_cons, ihl, hl]
      · simp only [List.foldl_cons, ihp, hp, List.filter_cons]
        by_cases hcond : itemSucceeds (ienv v) <;> simp [hcond]
      · simp only [List.foldl_cons, ihs, hs, List.countP_cons]
        by_cases hcond : itemSucceeds (ienv v)
        · simp [hcond]
          omega
        · simp [hcond]

/-- The work list both entry points compute at lines 545 and 617. -/
def unprocessedOf (env : BotEnv) : List Video :=
  (get_recent_videos env.hasApiKey env.search).filter
    (fun v => !((get_processed_videos_from_github env.hasToken
        env.readProcessed).contains v.id))

/-- C2: In every run (normal or retry), the items attempted — the ones the
loop calls fetch/transcribe/sink for — are exactly the discovery batch
minus the loaded ProcessedSet, filtered by item ID; consequently an ID
already in the loaded ProcessedSet is never attempted, even when it
reappears in the batch. -/
theorem c2_attempted_eq_batch_minus_processed (env : BotEnv) (s : Store) :
    (process_new_videos env s).2.attempted = (unprocessedOf env).map (·.id) ∧
    (retry_failed_videos env s).2.attempted = (unprocessedOf env).map (·.id) ∧
    (∀ i, i ∈ get_processed_videos_from_github env.hasToken env.readProcessed →
      i ∉ (process_new_videos env s).2.attempted ∧
      i ∉ (retry_failed_videos env s).2.attempted) := by
  set P := get_processed_videos_from_github env.hasToken env.readProcessed with hP
  set B := get_recent_videos env.hasApiKey env.search with hB
  have hU : unprocessedOf env = B.filter (fun v => !(P.contains v.id)) := rfl
  have hmain : (process_new_videos env s).2.attempted
      = (unprocessedOf env).map (·.id) := by
    rw [hU]
    simp only [process_new_videos, ← hP, ← hB]
    split
    · next h1 =>
      have hBnil : B = [] := List.isEmpty_iff.mp h1
      simp [hBnil]
    · next h1 =>
      split
      · next h2 =>
        have hnil := List.isEmpty_iff.mp h2
        rw [hnil]
        rfl
      · next h2 =>
        have hfold := foldl_processItem_spec env.itemEnv
          (B.filter (fun v => !(P.contains v.id))) ⟨P, [], 0, 0, []⟩
        simpa using hfold.2.1
  have hretry : (retry_failed_videos env s).2.attempted
      = (unprocessedOf env).map (·.id) := by
    rw [hU]
    simp only [retry_failed_videos, ← hP, ← hB]
    split
    · next h1 =>
      have hBnil : B = [] := List.isEmpty_iff.mp h1
      simp [hBnil]
    · next h1 =>
      split
      · next h2 =>
        have hnil := List.isEmpty_iff.mp h2
        rw [hnil]
        rfl
      · next h2 =>
        have hfold := foldl_processItem_spec env.itemEnv
          (B.filter (fun v => !(P.contains v.id))) ⟨P, [], 0, 0, []⟩
        simpa using hfold.2.1
  refine ⟨hmain, hretry, fun i hi => ?_⟩
  have hnot : i ∉ (unprocessedOf env).map (·.id) := by
    intro hmem
    obtain ⟨v, hvU, hvid⟩ := List.mem_map.mp hmem
    rw [hU] at hvU
    have hv := List.mem_filter.mp hvU
    have : ¬ (P.contains v.id = true) := by
      simpa using hv.2
    exact this (List.elem_iff.mpr (hvid ▸ hi))
  exact ⟨hmain ▸ hnot, hretry ▸ hnot⟩

/-- Writing the watermark never touches the processed-IDs record. -/
theorem save_last_check_processed (now : Int) (tk : Bool) (s : Store) :
    (save_last_check_time_to_github now tk s).processed = s.processed := by
  unfold save_last_check_time_to_github
  split <;> rfl

/-- Writing the watermark with a token present stores the current time. -/
theorem save_last_check_lastCheck (now : Int) (s : Store) :
    (save_last_check_time_to_github now true s).lastCheck = some now := rfl

/-- Final in-memory state and persisted processed-record of a normal run:
`successfully_processed` is the loaded set extended by the IDs of the
fully-succeeded work items, the counters count the work items and the
fully-succeeded ones, and the processed record is either untouched (the
two early returns) or replaced by `successfully_processed`. -/
theorem process_new_videos_char (env : BotEnv) (s : Store) :
    (process_new_videos env s).2.proc
      = get_processed_videos_from_github env.hasToken env.readProcessed
        ++ ((unprocessedOf env).filter
            (fun v => itemSucceeds (env.itemEnv v))).map (·.id) ∧
    (process_new_videos env s).2.att = (unprocessedOf env).length ∧
    (process_new_videos env s).2.succ
      = (unprocessedOf env).countP (fun v => itemSucceeds (env.itemEnv v)) ∧
    ((process_new_videos env s).1.processed = s.processed ∨
      (process_new_videos env s).1.processed
        = some ((process_new_videos env s).2.proc)) := by
  set P := get_processed_videos_from_github env.hasToken env.readProcessed with hP
  set B := get_recent_videos env.hasApiKey env.search with hB
  have hU : unprocessedOf env = B.filter (fun v => !(P.contains v.id)) := rfl
  rw [hU]
  simp only [process_new_videos, ← hP, ← hB]
  split
  · next h1 =>
    have hBnil : B = [] := List.isEmpty_iff.mp h1
    rw [hBnil]
    exact ⟨by simp, by simp, by simp, Or.inl (save_last_check_processed _ _ _)⟩
  · next h1 =>
    split
    · next h2 =>
      have hnil := List.isEmpty_iff.mp h2
      rw [hnil]
      exact ⟨by simp, by simp, by simp, Or.inl (save_last_check_processed _ _ _)⟩
    · next h2 =>
      have hfold := foldl_processItem_spec env.itemEnv
        (B.filter (fun v => !(P.contains v.id))) ⟨P, [], 0, 0, []⟩
      refine ⟨by simpa using hfold.2.2.1, by simpa using hfold.1,
        by simpa using hfold.2.2.2, Or.inr ?_⟩
      split
      · rw [save_last_check_processed]; rfl
      · split
        · rw [save_last_check_processed]; rfl
        · rfl

/-- Final state of a retry run: the watermark record is never written,
the success counter counts the fully-succeeded work items, and the
processed record is untouched unless at least one retry succeeded, in
which case it is replaced by the loaded set plus the succeeded IDs. -/
theorem retry_failed_videos_char (env : BotEnv) (s : Store) :
    (retry_failed_videos env s).1.lastCheck = s.lastCheck ∧
    (retry_failed_videos env s).2.succ
      = (unprocessedOf env).countP (fun v => itemSucceeds (env.itemEnv v)) ∧
    ((retry_failed_videos env s).1.processed = s.processed ∨
      (0 < (retry_failed_videos env s).2.succ ∧
        (retry_failed_videos env s).1.processed
          = some (get_processed_videos_from_github env.hasToken env.readProcessed
              ++ ((unprocessedOf env).filter
                  (fun v => itemSucceeds (env.itemEnv v))).map (·.id)))) := by
  set P := get_processed_videos_from_github env.hasToken env.readProcessed with hP
  set B := get_recent_videos env.hasApiKey env.search with hB
  have hU : unprocessedOf env = B.filter (fun v => !(P.contains v.id)) := rfl
  rw [hU]
  simp only [retry_failed_videos, ← hP, ← hB]
  split
  · next h1 =>
    have hBnil : B = [] := List.isEmpty_iff.mp h1
    rw [hBnil]
    exact ⟨rfl, by simp, Or.inl rfl⟩
  · next h1 =>
    split
    · next h2 =>
      have hnil := List.isEmpty_iff.mp h2
      rw [hnil]
      exact ⟨rfl, by simp, Or.inl rfl⟩
    · next h2 =>
      have hfold := foldl_processItem_spec env.itemEnv
        (B.filter (fun v => !(P.contains v.id))) ⟨P, [], 0, 0, []⟩
      have hsucc := hfold.2.2.2
      have hproc := hfold.2.2.1
      constructor
      · split
        · rfl
        · rfl
      constructor
      · simpa using hsucc
      · split
        · next hpos =>
          refine Or.inr ⟨by simpa using hpos, ?_⟩
          simp only [save_processed_videos_to_github]
          rw [hproc]
        · exact Or.inl rfl

/-! ### Concrete fixtures used to instantiate the theorems -/

/-- A 30-second candidate with ID `A`. -/
def candA : Candidate := ⟨"A", "titleA", "2024-01-01", .items "PT30S"⟩

/-- A 45-second candidate with ID `B`. -/
def candB : Candidate := ⟨"B", "titleB", "2024-01-02", .items "PT45S"⟩

/-- A 10-second candidate with ID `X` (already processed in fixtures). -/
def candX : Candidate := ⟨"X", "titleX", "2024-01-03", .items "PT10S"⟩

/-- Collaborator outcomes where item `A` fully succeeds and every other
item fails at the transcription stage. -/
def itemEnvAB : Video → ItemEnv := fun v =>
  if v.id = "A" then ⟨some "audio.wav", some "text", true⟩
  else ⟨some "audio.wav", none, false⟩

/-- A run environment: authenticated, discovery returns `A`, `B`, `X`,
the ProcessedSet record holds `X`, `A` succeeds and `B` fails. -/
def envAB : BotEnv :=
  ⟨1000, true, true, .ok 0, .ok ["X"], .ok [candA, candB, candX], itemEnvAB⟩

/-- The IDs a run appends to the ProcessedSet: the fully-succeeded
members of the work list. -/
def newIdsOf (env : BotEnv) : List String :=
  ((unprocessedOf env).filter (fun v => itemSucceeds (env.itemEnv v))).map (·.id)

/-- C1: Evaluating `process_new_videos` on a run with two work items of
which exactly one succeeds (`0 < succeeded < attempted`): line 590
(`if successful_attempts > 0`) calls `save_last_check_time_to_github`,
so the stored watermark moves from its pre-run value `0` to the current
time `1000` — the run does NOT keep the watermark unchanged, contrary
to the claimed advance rule. -/
theorem c1_partial_failure_advances_watermark :
    0 < (process_new_videos envAB ⟨some 0, some ["X"]⟩).2.succ ∧
    (process_new_videos envAB ⟨some 0, some ["X"]⟩).2.succ
      < (process_new_videos envAB ⟨some 0, some ["X"]⟩).2.att ∧
    (process_new_videos envAB ⟨some 0, some ["X"]⟩).1.lastCheck = some 1000 ∧
    (process_new_videos envAB ⟨some 0, some ["X"]⟩).1.lastCheck ≠ some 0 := by
  decide

/-- C6: Evaluating the `reset` entry point: `reset_date` (`now` minus 30
days) is computed and printed but never passed on; the store ends with
`lastCheck = now` (1000), which is neither the 30-days-back value nor
strictly earlier than the pre-run watermark 999. -/
theorem c6_reset_stores_now :
    (main_reset ⟨1000, true, true, .ok 0, .ok [], .ok [],
        fun _ => ⟨none, none, false⟩⟩ ⟨some 999, some []⟩).lastCheck
      = some 1000 ∧
    reset_date 1000 = 1000 - 30 * daySecs ∧
    (main_reset ⟨1000, true, true, .ok 0, .ok [], .ok [],
        fun _ => ⟨none, none, false⟩⟩ ⟨some 999, some []⟩).lastCheck
      ≠ some (reset_date 1000) ∧
    ¬ ((1000 : Int) < 999) := by
  decide

/-- C5: `is_short_video` keeps a candidate exactly when the duration
lookup produced a string the regex matches and the parsed seconds are at
most `MAX_DURATION = 180`; a missing `items` field, a raised lookup, or
an unparsable string all exclude the candidate. -/
theorem c5_duration_filter (d : DurationLookup) :
    MAX_DURATION = 180 ∧
    (is_short_video d = true ↔
      ∃ str total, d = DurationLookup.items str ∧
        parseDuration str = some total ∧ total ≤ MAX_DURATION) := by
  refine ⟨rfl, ?_⟩
  cases d with
  | items str =>
      cases hp : parseDuration str with
      | none =>
          simp only [is_short_video, hp]
          constructor
          · intro h
            exact absurd h (by simp)
          · rintro ⟨str', total, heq, hp', _⟩
            cases heq
            rw [hp] at hp'
            exact absurd hp' (by simp)
      | some total =>
          constructor
          · intro h
            refine ⟨str, total, rfl, hp, ?_⟩
            simpa [is_short_video, hp] using h
          · rintro ⟨str', total', heq, hp', hle⟩
            cases heq
            rw [hp] at hp'
            cases hp'
            simpa [is_short_video, hp] using hle
  | noItems =>
      simp only [is_short_video]
      constructor
      · intro h
        exact absurd h (by simp)
      · rintro ⟨str', total, heq, _, _⟩
        cases heq
  | err =>
      simp only [is_short_video]
      constructor
      · intro h
        exact absurd h (by simp)
      · rintro ⟨str', total, heq, _, _⟩
        cases heq

/-- Dropping a whole prefix whose elements all satisfy the predicate. -/
theorem dropWhile_append_of_all {α : Type} (p : α → Bool) (l1 l2 : List α)
    (h : ∀ x ∈ l1, p x = true) :
    List.dropWhile p (l1 ++ l2) = List.dropWhile p l2 := by
  induction l1 with
  | nil => rfl
  | cons a l ih =>
      have ha := h a (List.mem_cons_self a l)
      simp only [List.cons_append, List.dropWhile_cons, ha, if_true]
      exact ih (fun x hx => h x (List.mem_cons_of_mem a hx))

/-- `os.path.dirname` on a path built as `dir ++ "/" ++ file` recovers
the directory when the file name holds no separator. -/
theorem dirnameOf_append (d f : String) (h : '/' ∉ f.toList) :
    dirnameOf (d ++ "/" ++ f) = d := by
  unfold dirnameOf
  have hlist : (d ++ "/" ++ f).toList = d.toList ++ '/' :: f.toList := by
    show (d ++ "/" ++ f).data = d.data ++ '/' :: f.data
    rw [String.data_append, String.data_append]
    have hsep : "/".data = ['/'] := by decide
    rw [hsep, List.append_assoc]
    rfl
  rw [hlist]
  rw [List.reverse_append]
  have hrev : ('/' :: f.toList).reverse = f.toList.reverse ++ ['/'] := by
    simp
  rw [hrev, List.append_assoc]
  rw [dropWhile_append_of_all (fun c => c ≠ '/') f.toList.reverse
      (['/'] ++ d.toList.reverse)
      (fun x hx => by
        simp only [decide_eq_true_eq, ne_eq]
        intro hxeq
        exact h (hxeq ▸ List.mem_reverse.mp hx))]
  simp only [List.singleton_append, List.dropWhile_cons]
  norm_num

/-- C4 counterexample: an item whose audio acquisition fails
(`download_audio_to_temp` returns `None`, line 563 `continue`s) leaves
the `mkdtemp` directory created for it on disk after the item
completes — a scratch resource remains, so cleanup-on-every-path fails
as stated. -/
theorem c4_acquisition_failure_leaks_scratch :
    (processItem ⟨none, none, false⟩ ⟨"A", "t", "p", "u"⟩
        ⟨["X"], [], 0, 0, []⟩).live = [mkScratchDir ⟨"A", "t", "p", "u"⟩] ∧
    [mkScratchDir ⟨"A", "t", "p", "u"⟩] ≠ ([] : List String) := by
  decide

/-- C4 (amended): when audio acquisition returns a file, every outcome
of the remaining stages (transcription failure, sink failure, or full
success) removes the item's scratch file and directory, leaving the
scratch state as it was; when acquisition fails, the item's temporary
directory remains. -/
theorem c4_scratch_cleanup (e : ItemEnv) (v : Video) (st : RunState)
    (hfresh : mkScratchDir v ∉ st.live) :
    (∀ f, e.download = some f → '/' ∉ f.toList →
      (processItem e v st).live = st.live) ∧
    (e.download = none →
      (processItem e v st).live = st.live ++ [mkScratchDir v]) := by
  constructor
  · intro f hdl hns
    have hdir : dirnameOf (mkScratchDir v ++ "/" ++ f) = mkScratchDir v :=
      dirnameOf_append _ _ hns
    have hfilter : cleanup_temp_file (mkScratchDir v ++ "/" ++ f)
        (st.live ++ [mkScratchDir v]) = st.live := by
      unfold cleanup_temp_file
      rw [hdir, List.filter_append]
      have h1 : st.live.filter (fun x => x ≠ mkScratchDir v) = st.live :=
        List.filter_eq_self.mpr (fun x hx => by
          simp only [decide_eq_true_eq, ne_eq]
          intro hxeq
          exact hfresh (hxeq ▸ hx))
      have h2 : [mkScratchDir v].filter (fun x => x ≠ mkScratchDir v) = [] := by
        simp
      rw [h1, h2, List.append_nil]
    simp only [processItem, download_audio_to_temp, hdl]
    by_cases ht : textFails e.transcribeResult
    · simpa [ht] using hfilter
    · cases hsk : e.sinkOk <;> simpa [ht, hsk] using hfilter
  · intro hdl
    simp [processItem, download_audio_to_temp, hdl]

/-- Witness for `c4_scratch_cleanup`: concrete items with a succeeding
download (failing transcription) leave no scratch, and a failing
download leaves exactly its directory. -/
theorem c4_scratch_cleanup_witness :
    (processItem ⟨some "audio.wav", none, false⟩ ⟨"A", "t", "p", "u"⟩
        ⟨["X"], [], 0, 0, []⟩).live = [] ∧
    (processItem ⟨none, some "txt", true⟩ ⟨"A", "t", "p", "u"⟩
        ⟨["X"], [], 0, 0, []⟩).live = [] ++ [mkScratchDir ⟨"A", "t", "p", "u"⟩] :=
  ⟨(c4_scratch_cleanup ⟨some "audio.wav", none, false⟩ ⟨"A", "t", "p", "u"⟩
      ⟨["X"], [], 0, 0, []⟩ (by decide)).1 "audio.wav" rfl (by decide),
   (c4_scratch_cleanup ⟨none, some "txt", true⟩ ⟨"A", "t", "p", "u"⟩
      ⟨["X"], [], 0, 0, []⟩ (by decide)).2 rfl⟩

/-- C3: In both runs, `successfully_processed` starts as the loaded
ProcessedSet and only grows: the final in-memory list is the loaded list
followed by the new IDs, every loaded ID is still present, every new ID
comes from a work item whose sink append returned success, and the
persisted record is either untouched or replaced by that superset. -/
theorem c3_processed_set_monotone (env : BotEnv) (s : Store) :
    (process_new_videos env s).2.proc
      = get_processed_videos_from_github env.hasToken env.readProcessed
        ++ newIdsOf env ∧
    ((process_new_videos env s).1.processed = s.processed ∨
      (process_new_videos env s).1.processed
        = some (get_processed_videos_from_github env.hasToken env.readProcessed
            ++ newIdsOf env)) ∧
    ((retry_failed_videos env s).1.processed = s.processed ∨
      (retry_failed_videos env s).1.processed
        = some (get_processed_videos_from_github env.hasToken env.readProcessed
            ++ newIdsOf env)) ∧
    (∀ i ∈ get_processed_videos_from_github env.hasToken env.readProcessed,
      i ∈ get_processed_videos_from_github env.hasToken env.readProcessed
        ++ newIdsOf env) ∧
    (∀ id ∈ newIdsOf env, ∃ v, v ∈ unprocessedOf env ∧ v.id = id ∧
      (env.itemEnv v).sinkOk = true) := by
  obtain ⟨hproc, hatt, hsucc, hstore⟩ := process_new_videos_char env s
  obtain ⟨hlc, hrsucc, hrstore⟩ := retry_failed_videos_char env s
  refine ⟨hproc, ?_, ?_, ?_, ?_⟩
  · cases hstore with
    | inl h => exact Or.inl h
    | inr h => exact Or.inr (h.trans (congrArg some hproc))
  · cases hrstore with
    | inl h => exact Or.inl h
    | inr h => exact Or.inr h.2
  · intro i hi
    exact List.mem_append_left _ hi
  · intro id hid
    obtain ⟨v, hv, hvid⟩ := List.mem_map.mp hid
    have hvf := List.mem_filter.mp hv
    refine ⟨v, hvf.1, hvid, ?_⟩
    have hs := hvf.2
    unfold itemSucceeds at hs
    exact (Bool.and_eq_true _ _).mp hs |>.2

/-- Witness for `c3_processed_set_monotone`: in the fixture run the
final in-memory processed list is the loaded `["X"]` plus the
newly-succeeded `"A"`. -/
theorem c3_processed_set_monotone_witness :
    (process_new_videos envAB ⟨some 0, some ["X"]⟩).2.proc = ["X", "A"] :=
  ((c3_processed_set_monotone envAB ⟨some 0, some ["X"]⟩).1).trans (by decide)

/-- Witness for `c2_attempted_eq_batch_minus_processed`: in the fixture
run, `X` is in the loaded ProcessedSet, reappears in the discovery
batch, and is attempted by neither run. -/
theorem c2_attempted_witness :
    "X" ∈ get_processed_videos_from_github envAB.hasToken envAB.readProcessed ∧
    "X" ∉ (process_new_videos envAB ⟨some 0, some ["X"]⟩).2.attempted ∧
    "X" ∉ (retry_failed_videos envAB ⟨some 0, some ["X"]⟩).2.attempted := by
  refine ⟨by decide, ?_, ?_⟩
  · exact ((c2_attempted_eq_batch_minus_processed envAB
      ⟨some 0, some ["X"]⟩).2.2 "X" (by decide)).1
  · exact ((c2_attempted_eq_batch_minus_processed envAB
      ⟨some 0, some ["X"]⟩).2.2 "X" (by decide)).2

/-- C7: when the discovery request raises, `get_recent_videos` returns
the empty list, and the run then ends with `attempted = 0`, the
watermark advanced to the current time, and the processed record left
exactly as it was (not rewritten). -/
theorem c7_discovery_error_run (env : BotEnv) (s : Store) (e : Unit)
    (hs : env.search = Except.error e) (ht : env.hasToken = true) :
    get_recent_videos env.hasApiKey env.search = [] ∧
    (process_new_videos env s).2.att = 0 ∧
    (process_new_videos env s).1.lastCheck = some env.now ∧
    (process_new_videos env s).1.processed = s.processed := by
  have hB : get_recent_videos env.hasApiKey env.search = [] := by
    rw [hs]
    unfold get_recent_videos
    cases env.hasApiKey <;> rfl
  have hrun : process_new_videos env s
      = (save_last_check_time_to_github env.now env.hasToken s,
         ⟨get_processed_videos_from_github env.hasToken env.readProcessed,
          [], 0, 0, []⟩) := by
    simp only [process_new_videos, hB]
    rfl
  refine ⟨hB, ?_, ?_, ?_⟩
  · rw [hrun]
  · rw [hrun, ht]
    exact save_last_check_lastCheck env.now s
  · rw [hrun]
    exact save_last_check_processed env.now env.hasToken s

/-- Witness for `c7_discovery_error_run`: a concrete authenticated run
whose search raised. -/
theorem c7_discovery_error_run_witness :
    get_recent_videos true (Except.error ()) = [] ∧
    (process_new_videos
        ⟨1000, true, true, .ok 0, .ok ["X"], .error (),
         fun _ => ⟨none, none, false⟩⟩ ⟨some 5, some ["X"]⟩).2.att = 0 ∧
    (process_new_videos
        ⟨1000, true, true, .ok 0, .ok ["X"], .error (),
         fun _ => ⟨none, none, false⟩⟩ ⟨some 5, some ["X"]⟩).1.lastCheck
      = some 1000 ∧
    (process_new_videos
        ⟨1000, true, true, .ok 0, .ok ["X"], .error (),
         fun _ => ⟨none, none, false⟩⟩ ⟨some 5, some ["X"]⟩).1.processed
      = some ["X"] :=
  (c7_discovery_error_run
      ⟨1000, true, true, .ok 0, .ok ["X"], .error (),
       fun _ => ⟨none, none, false⟩⟩ ⟨some 5, some ["X"]⟩ () rfl rfl)

/-- C8: the two checkpoint reads are total functions (never raise): the
watermark read returns the stored value on a successful authenticated
read and degrades to `now` minus one day on a missing record, a raising
store, or a missing token; the processed read likewise degrades to the
empty set. -/
theorem c8_checkpoint_reads_degrade (now t : Int) (hasToken : Bool)
    (ids : List String) :
    get_last_check_time_from_github now true (.ok t) = t ∧
    get_last_check_time_from_github now hasToken .absent = now - daySecs ∧
    get_last_check_time_from_github now hasToken .err = now - daySecs ∧
    get_last_check_time_from_github now false (.ok t) = now - daySecs ∧
    get_processed_videos_from_github true (.ok ids) = ids ∧
    get_processed_videos_from_github hasToken .absent = [] ∧
    get_processed_videos_from_github hasToken .err = [] ∧
    get_processed_videos_from_github false (.ok ids) = [] := by
  cases hasToken <;> exact ⟨rfl, rfl, rfl, rfl, rfl, rfl, rfl, rfl⟩

/-- C9: the sink writer's content policy: a transcription of at most 500
words is written unmodified, and one of more than 500 words is replaced
by exactly its first 500 words (joined by single spaces, as
`' '.join(words[:500])` does) followed by the trailing marker `...`. -/
theorem c9_truncation (s : String) :
    ((pyWords s).length ≤ 500 → truncate_transcript s = s) ∧
    (500 < (pyWords s).length →
      truncate_transcript s
        = String.intercalate " " ((pyWords s).take 500) ++ "...") := by
  constructor
  · intro h
    simp only [truncate_transcript]
    rw [if_neg (by omega)]
  · intro h
    simp only [truncate_transcript]
    rw [if_pos h]

/-- The character sequence `w w w … w` with `n` words. -/
def sepChars : Nat → List Char
  | 0 => []
  | 1 => ['w']
  | n + 2 => 'w' :: ' ' :: sepChars (n + 1)

/-- A 501-word text. -/
def longText : String := String.mk (sepChars 501)

/-- Splitting the `n+1`-word sequence gives `n+1` one-letter words. -/
theorem pySplitAux_sepChars (n : Nat) :
    pySplitAux (sepChars (n + 1)) [] = List.replicate (n + 1) ['w'] := by
  induction n with
  | zero => rfl
  | succ m ih =>
      show pySplitAux ('w' :: ' ' :: sepChars (m + 1)) [] = _
      rw [show pySplitAux ('w' :: ' ' :: sepChars (m + 1)) []
            = ['w'] :: pySplitAux (sepChars (m + 1)) [] from rfl]
      rw [ih]
      rfl

/-- `longText` splits into 501 copies of the word `w`. -/
theorem pyWords_longText : pyWords longText = List.replicate 501 "w" := by
  show (pySplitAux (sepChars 501) []).map String.mk = _
  rw [show (501 : Nat) = 500 + 1 from rfl, pySplitAux_sepChars 500,
    List.map_replicate]

/-- Witness for `c9_truncation`: a two-word text passes unchanged and a
501-word text is truncated. -/
theorem c9_truncation_witness :
    truncate_transcript "two words" = "two words" ∧
    truncate_transcript longText
      = String.intercalate " " ((pyWords longText).take 500) ++ "..." :=
  ⟨(c9_truncation "two words").1 (by decide),
   (c9_truncation longText).2
     (by rw [pyWords_longText, List.length_replicate]; norm_num)⟩

/-- C10: a retry run never writes the watermark record — whatever the
per-item outcomes, the stored `last_check` after the run is the value
before it — and the processed record is either left untouched or
rewritten in a run where at least one retried item succeeded. -/
theorem c10_retry_frame (env : BotEnv) (s : Store) :
    (retry_failed_videos env s).1.lastCheck = s.lastCheck ∧
    ((retry_failed_videos env s).1.processed = s.processed ∨
      0 < (retry_failed_videos env s).2.succ) := by
  obtain ⟨hlc, _, hrstore⟩ := retry_failed_videos_char env s
  refine ⟨hlc, ?_⟩
  cases hrstore with
  | inl h => exact Or.inl h
  | inr h => exact Or.inr h.1

end TranscriptionBot
